import Mathlib

/-!
Verification of `scripts/download_kalshi_trades.py` (Kalshi daily trade
downloader).  The Python source is shallowly embedded: dates are proleptic
Gregorian epoch-day numbers (days since 1970-01-01, the representation
underlying `datetime.date` ordinal arithmetic), timestamps are Unix seconds,
the HTTP layer is an oracle function giving the outcome of each attempt, and
the filesystem is a map from path strings to file contents.
-/

namespace KalshiTrades

/-- Source line 35: `DEFAULT_LIMIT = 500`. -/
def DEFAULT_LIMIT : Nat := 500

/-- Source line 37: `RETRY_DELAY_SECONDS = 10`. -/
def RETRY_DELAY_SECONDS : Nat := 10

/-- Source line 38: `MAX_RETRIES = 8`. -/
def MAX_RETRIES : Nat := 8

/-- Calendar dates, represented by their epoch day number (days since
1970-01-01 in the proleptic Gregorian calendar), which is how `datetime.date`
arithmetic (`+ timedelta(days=1)`, comparisons) behaves. -/
abbrev Date := Nat

/-- Epoch day number of the Gregorian date y-m-d (valid for years ≥ 1970,
the only years this program handles): the standard civil-calendar conversion
used by `datetime.date.toordinal`, shifted to the Unix epoch. -/
def daysFromCivil (y m d : Nat) : Nat :=
  let yAdj := if m ≤ 2 then y - 1 else y
  let era := yAdj / 400
  let yoe := yAdj - era * 400
  let mp := (m + 9) % 12
  let doy := (153 * mp + 2) / 5 + (d - 1)
  let doe := yoe * 365 + yoe / 4 - yoe / 100 + doy
  era * 146097 + doe - 719468

/-- Build a `Date` from year, month, day. -/
def mkDate (y m d : Nat) : Date := daysFromCivil y m d

/-- Source line 39: `DEFAULT_START_DATE = "2025-08-15"` (parsed). -/
def DEFAULT_START_DATE : Date := mkDate 2025 8 15

/-- Source lines 110-113, `to_unix_range`: midnight UTC of the day, and
midnight of the next day minus one second.  A UTC-midnight `datetime`'s
`.timestamp()` is its epoch day number times 86400. -/
def to_unix_range (day : Date) : Nat × Nat :=
  (day * 86400, day * 86400 + 86400 - 1)

/-- Source lines 99-103, `daterange`: all days from `start` to `stop`
inclusive (empty when `start > stop`). -/
def daterange (start stop : Date) : List Date :=
  List.range' start (stop + 1 - start)

/-- The command-line arguments relevant to range planning (lines 50-96):
optional explicit start/end dates, the overwrite flag and the
include-today flag. -/
structure Args where
  start_date : Option Date
  end_date : Option Date
  overwrite : Bool
  include_today : Bool
deriving DecidableEq

/-- Source lines 116-143, `detect_range`.  The output directory is modelled
as the list of dates whose `YYYY-MM-DD.json` files it contains.  Returns
`(start_date, end_date, today_local)`: default end is yesterday in the
configured time zone; default start is one day after the latest existing
date, or `DEFAULT_START_DATE` when no file exists.  The source sorts the
existing dates and takes the last element. -/
def detect_range (args : Args) (existing : List Date) (today_local : Date) :
    Date × Date × Date :=
  let default_end := today_local - 1
  let end_date := match args.end_date with
    | some e => e
    | none => default_end
  let existing_dates := existing.insertionSort (· ≤ ·)
  let start_date := match args.start_date with
    | some s => s
    | none =>
      match existing_dates.getLast? with
      | some latest => latest + 1
      | none => DEFAULT_START_DATE
  (start_date, end_date, today_local)

/-- Source lines 250-251 of `main`: if `include_today` is not set and the end
date reaches today, clamp it back to yesterday. -/
def adjustEnd (args : Args) (end_date today_local : Date) : Date :=
  if !args.include_today && today_local ≤ end_date then today_local - 1
  else end_date

/-- Source lines 264-270 of `main`: the pending days are the days of the
range whose file does not already exist (unless `overwrite` is set). -/
def pendingOf (args : Args) (dirDates : List Date) (start stop : Date) :
    List Date :=
  (daterange start stop).filter
    (fun d => !(dirDates.contains d && !args.overwrite))

/-- The Pending Day Set computed by `main` (lines 249-270): detect the range,
clamp the end, and filter out already-present days; empty when
`start > end`. -/
def planPending (args : Args) (dirDates : List Date) (today_local : Date) :
    List Date :=
  let r := detect_range args dirDates today_local
  let start_date := r.1
  let end_date := adjustEnd args r.2.1 today_local
  if end_date < start_date then []
  else pendingOf args dirDates start_date end_date

/-- Observable events of the planning phase of `main`, in program order. -/
inductive Event where
  | planned (pending : List Date)
  | removedToday (d : Date)
deriving DecidableEq

/-- Is this event the deletion of today's file? -/
def eventIsRemove : Event → Bool
  | .removedToday _ => true
  | _ => false

/-- Is this event the computation of the Pending Day Set? -/
def eventIsPlan : Event → Bool
  | .planned _ => true
  | _ => false

/-- Source lines 249-286 of `main`, up to scheduling: returns the ordered
trace of planning/deletion events together with the directory contents
afterwards.  When `start > end` after adjustment, `main` returns at line 262
before either building the pending list or deleting today's file; otherwise
it first builds the pending list (lines 264-270) and only then, when
`include_today` is unset and today's file exists, deletes that file
(lines 272-282). -/
def mainPlanPhase (args : Args) (dirDates : List Date) (today_local : Date) :
    List Event × List Date :=
  let r := detect_range args dirDates today_local
  let start_date := r.1
  let end_date := adjustEnd args r.2.1 today_local
  if end_date < start_date then ([], dirDates)
  else
    let pending := pendingOf args dirDates start_date end_date
    if !args.include_today && dirDates.contains today_local then
      ([Event.planned pending, Event.removedToday today_local],
        dirDates.erase today_local)
    else ([Event.planned pending], dirDates)

/-- The claim-C3 property as stated: some deletion event strictly precedes
some planning event in the trace. -/
def deleteBeforePlan (tr : List Event) : Prop :=
  ∃ i : Fin tr.length, ∃ j : Fin tr.length,
    i.val < j.val ∧ eventIsRemove (tr.get i) = true ∧
      eventIsPlan (tr.get j) = true

/-- Trade records are opaque pass-through payloads (never inspected); an
abstract token type suffices. -/
abbrev Trade := Nat

/-- The class of a Python exception raised during one page request
(the request, the body read, or `json.loads`), or later while consuming
the parsed object. -/
inductive ErrClass where
  | httpError
  | urlError
  | timeoutError
  | incompleteRead
  | connectionReset
  | jsonDecodeError
  | typeError
  | otherError
deriving DecidableEq

/-- Source line 176: the exception classes caught by `fetch_page`'s `except`
clause — `(error.HTTPError, error.URLError, TimeoutError,
http.client.IncompleteRead, ConnectionResetError)`.  Anything else
propagates uncaught. -/
def isCaughtNetworkError : ErrClass → Bool
  | .httpError => true
  | .urlError => true
  | .timeoutError => true
  | .incompleteRead => true
  | .connectionReset => true
  | _ => false

/-- A parsed page response object.  `trades` distinguishes the key being
absent (`none`), present but JSON `null` (`some none`), and present with a
list (`some (some xs)`); `cursor` is the string value of the cursor key when
present and non-null (`data.get("cursor")` yields `None` for both absent and
null). -/
structure PageResp where
  trades : Option (Option (List Trade))
  cursor : Option String
deriving DecidableEq

/-- The outcome of one HTTP attempt inside `fetch_page`'s `try` block:
either a parsed response object, or a raised exception of some class. -/
inductive AttemptOutcome where
  | ok (resp : PageResp)
  | raised (e : ErrClass)
deriving DecidableEq

/-- Result of `fetch_page`: the returned page or the propagated exception,
together with the sleeps performed (in seconds, in order). -/
structure FetchResult where
  result : Except ErrClass PageResp
  delays : List Nat

/-- Source lines 163-186, `fetch_page`.  `oracle n` is what the n-th attempt
of this page request does.  A caught network-class exception is re-raised
once `attempt >= MAX_RETRIES`, otherwise the function sleeps
`RETRY_DELAY_SECONDS * attempt` and re-invokes itself with `attempt + 1`;
any other exception propagates immediately. -/
def fetch_page (oracle : Nat → AttemptOutcome) (attempt : Nat) : FetchResult :=
  match oracle attempt with
  | .ok resp => { result := .ok resp, delays := [] }
  | .raised e =>
    if isCaughtNetworkError e then
      if MAX_RETRIES ≤ attempt then { result := .error e, delays := [] }
      else
        let rest := fetch_page oracle (attempt + 1)
        { result := rest.result,
          delays := RETRY_DELAY_SECONDS * attempt :: rest.delays }
    else { result := .error e, delays := [] }
termination_by MAX_RETRIES - attempt
decreasing_by simp only [MAX_RETRIES] at *; omega

/-- The query parameters of one page request (source lines 197-203):
the day's window, the page size, and the cursor — the cursor key is only
set when the loop's cursor is truthy. -/
structure PageParams where
  min_ts : Nat
  max_ts : Nat
  limit : Nat
  cursor : Option String
deriving DecidableEq

/-- Python truthiness of the loop's cursor variable: `None` and `""` are
falsy (lines 202 and 210 both use truthiness). -/
def cursorTruthy : Option String → Bool
  | none => false
  | some s => !s.isEmpty

/-- `data.get("trades", [])` (source line 206): an absent key yields the
default `[]`; a key present with JSON `null` yields `None`; a key present
with a list yields that list.  `none` here marks the `None` outcome, whose
subsequent `trades.extend(None)` raises `TypeError`. -/
def getTradesDefault : Option (Option (List Trade)) → Option (List Trade)
  | none => some []
  | some none => none
  | some (some xs) => some xs

/-- The trades contributed by a page on a successful pass (empty when the
key is absent). -/
def pageTradesOf (p : PageResp) : List Trade :=
  match getTradesDefault p.trades with
  | some xs => xs
  | none => []

/-- Source lines 196-215, the pagination loop of `fetch_trades_for_day`.
`fetch` abstracts `fetch_page` applied to the encoded parameters: it returns
the parsed page or the exception `fetch_page` propagated.  `fuel` bounds the
number of iterations we unfold (the source loop has no internal bound);
`none` means the loop was still running when the fuel ran out.
`some (.error e)` is an exception aborting the day, `some (.ok ts)` the
accumulated trade list on normal exit. -/
def fetchLoop (fetch : PageParams → Except ErrClass PageResp)
    (min_ts max_ts limit : Nat) (cursor : Option String) (acc : List Trade) :
    Nat → Option (Except ErrClass (List Trade))
  | 0 => none
  | fuel + 1 =>
    let params : PageParams :=
      { min_ts := min_ts, max_ts := max_ts, limit := limit,
        cursor := if cursorTruthy cursor then cursor else none }
    match fetch params with
    | .error e => some (.error e)
    | .ok data =>
      match getTradesDefault data.trades with
      | none => some (.error .typeError)
      | some page_trades =>
        let acc2 := acc ++ page_trades
        if cursorTruthy data.cursor then
          fetchLoop fetch min_ts max_ts limit data.cursor acc2 fuel
        else some (.ok acc2)

/-- Source lines 189-215, `fetch_trades_for_day`: compute the day's UTC
window and run the pagination loop from an absent cursor and an empty
accumulator. -/
def fetch_trades_for_day (fetch : PageParams → Except ErrClass PageResp)
    (day : Date) (limit : Nat) (fuel : Nat) :
    Option (Except ErrClass (List Trade)) :=
  let r := to_unix_range day
  fetchLoop fetch r.1 r.2 limit none [] fuel

/-- The chain of page responses the loop visits, in cursor order: the first
page is requested with no cursor, each later page with the previous page's
cursor, stopping at the first page whose cursor is absent or empty. -/
def pageChain (fetch : PageParams → Except ErrClass PageResp)
    (min_ts max_ts limit : Nat) (cursor : Option String) :
    Nat → Option (List PageResp)
  | 0 => none
  | fuel + 1 =>
    let params : PageParams :=
      { min_ts := min_ts, max_ts := max_ts, limit := limit,
        cursor := if cursorTruthy cursor then cursor else none }
    match fetch params with
    | .error _ => none
    | .ok data =>
      match getTradesDefault data.trades with
      | none => none
      | some _ =>
        if cursorTruthy data.cursor then
          match pageChain fetch min_ts max_ts limit data.cursor fuel with
          | none => none
          | some rest => some (data :: rest)
        else some [data]

/-- The payload persisted for a day (source lines 227-233):
`{date, min_ts, max_ts, trade_count, trades}` with
`trade_count = len(trades)`. -/
structure DayPayload where
  date : Date
  min_ts : Nat
  max_ts : Nat
  trade_count : Nat
  trades : List Trade
deriving DecidableEq

/-- Filesystem operations performed by the persistence code, in order.
`openTrunc` is `output_file.open("w")`: it creates the file, or truncates it
to empty if it exists.  `write` appends text to the file.  `rename`
atomically moves a file (never issued by the source — listed so that its
absence can be stated). -/
inductive FsOp where
  | openTrunc (p : String)
  | write (p : String) (s : String)
  | rename (src : String) (dst : String)
deriving DecidableEq

/-- Is this operation a rename? -/
def FsOp.isRename : FsOp → Bool
  | .rename _ _ => true
  | _ => false

/-- A filesystem state: each path maps to its contents, or `none` when no
such file exists. -/
def Fs : Type := String → Option String

/-- Effect of one operation on a filesystem state. -/
def applyOp (fs : Fs) : FsOp → Fs
  | .openTrunc p => fun q => if q = p then some "" else fs q
  | .write p s => fun q =>
      if q = p then some (((fs p).getD "") ++ s) else fs q
  | .rename src dst => fun q =>
      if q = dst then fs src else if q = src then none else fs q

/-- Effect of a sequence of operations, first to last. -/
def applyOps (fs : Fs) (ops : List FsOp) : Fs :=
  ops.foldl applyOp fs

/-- The file a day is persisted to, keyed deterministically by its date
(`<YYYY-MM-DD>.json` in the source; our dates print their epoch day
number, an injective encoding of the same date). -/
def dateFileName (d : Date) : String := toString d ++ ".json"

/-- The serialized JSON text of a Day Record, standing for
`json.dump(payload, f, indent=2)`'s output: one string determined by the
payload's fields. -/
def renderPayload (p : DayPayload) : String :=
  "\x7b \"date\": " ++ toString p.date ++ ", \"min_ts\": " ++
    toString p.min_ts ++ ", \"max_ts\": " ++ toString p.max_ts ++
    ", \"trade_count\": " ++ toString p.trade_count ++ ", \"trades\": " ++
    toString p.trades ++ " \x7d"

/-- Source lines 235-237: open the output file for writing (truncating or
creating it in place), dump the JSON payload into it, then append a
newline.  No temporary file and no rename is involved. -/
def persistOps (path : String) (content : String) : List FsOp :=
  [.openTrunc path, .write path content, .write path "\n"]

/-- All-or-nothing visibility of `ops` at `path` from `fs0`: after every
prefix of the operation sequence, a reader of `path` sees either the
original state or the final state, never anything in between. -/
def atomicFor (fs0 : Fs) (path : String) (ops : List FsOp) : Prop :=
  ∀ i, i < ops.length + 1 →
    applyOps fs0 (ops.take i) path = fs0 path ∨
      applyOps fs0 (ops.take i) path = applyOps fs0 ops path

instance atomicForDecidable (fs0 : Fs) (path : String) (ops : List FsOp) :
    Decidable (atomicFor fs0 path ops) := by
  unfold atomicFor; exact Nat.decidableBallLT _ _

instance deleteBeforePlanDecidable (tr : List Event) :
    Decidable (deleteBeforePlan tr) := by
  unfold deleteBeforePlan; exact inferInstance

/-- Source lines 218-240, `download_single_day`: fetch the day's trades;
only if the fetch returns normally, build the payload (window from
`to_unix_range`, `trade_count = len(trades)`) and write it.  Returns the
day-level outcome (`none` when the pagination loop exceeded the fuel)
together with the filesystem operations performed; a raised exception
reaches the caller before any file operation happens. -/
def download_single_day (fetch : PageParams → Except ErrClass PageResp)
    (day : Date) (limit : Nat) (fuel : Nat) :
    Option (Except ErrClass DayPayload) × List FsOp :=
  match fetch_trades_for_day fetch day limit fuel with
  | none => (none, [])
  | some (.error e) => (some (.error e), [])
  | some (.ok trades) =>
    let payload : DayPayload :=
      { date := day, min_ts := (to_unix_range day).1,
        max_ts := (to_unix_range day).2, trade_count := trades.length,
        trades := trades }
    (some (.ok payload),
      persistOps (dateFileName day) (renderPayload payload))

/-! Concrete fixtures used to evaluate the definitions at specific inputs. -/

/-- 2025-03-10, the day of the spec's boundary-window example. -/
def day0 : Date := mkDate 2025 3 10

/-- Existing Day Records for 2025-01-01 .. 2025-01-05. -/
def existingJan : List Date :=
  [mkDate 2025 1 1, mkDate 2025 1 2, mkDate 2025 1 3, mkDate 2025 1 4,
    mkDate 2025 1 5]

/-- All-default arguments: no explicit dates, no overwrite, no
include-today. -/
def argsDefault : Args :=
  { start_date := none, end_date := none, overwrite := false,
    include_today := false }

/-- Arguments with `include-today` set and no explicit end date. -/
def argsIncludeToday : Args :=
  { start_date := some (mkDate 2025 1 5), end_date := none,
    overwrite := false, include_today := true }

/-- Arguments with an explicit start date of 2025-01-08. -/
def argsStartJan8 : Args :=
  { start_date := some (mkDate 2025 1 8), end_date := none,
    overwrite := false, include_today := false }

/-- A directory holding 2025-01-01..05 plus a file for today 2025-01-10. -/
def dirWithToday : List Date := existingJan ++ [mkDate 2025 1 10]

/-- An empty page response: `trades` key present with `[]`, no cursor. -/
def respEmpty : PageResp := { trades := some (some []), cursor := none }

/-- An attempt oracle whose first seven attempts raise a timeout and whose
eighth returns an empty page. -/
def oracleSevenFailures : Nat → AttemptOutcome := fun n =>
  if n < 8 then .raised .timeoutError else .ok respEmpty

/-- An attempt oracle that always raises a timeout. -/
def oracleAlwaysTimeout : Nat → AttemptOutcome := fun _ =>
  .raised .timeoutError

/-- An attempt oracle that raises a JSON decode error on every attempt. -/
def oracleJsonError : Nat → AttemptOutcome := fun _ =>
  .raised .jsonDecodeError

/-- A page fetcher returning a single empty page. -/
def fetchEmptyPage : PageParams → Except ErrClass PageResp := fun _ =>
  .ok respEmpty

/-- A page fetcher whose response carries `trades: null` (key present,
value JSON `null`). -/
def fetchNullTrades : PageParams → Except ErrClass PageResp := fun _ =>
  .ok { trades := some none, cursor := none }

/-- A page fetcher whose response lacks the `trades` key entirely. -/
def fetchAbsentTrades : PageParams → Except ErrClass PageResp := fun _ =>
  .ok { trades := none, cursor := none }

/-- A page fetcher that always fails with an HTTP error. -/
def fetchHttpError : PageParams → Except ErrClass PageResp := fun _ =>
  .error .httpError

/-- A two-page fetcher: the cursorless request returns trades `[1, 2]` and
cursor `"c1"`; the follow-up request returns trades `[3]` and no cursor. -/
def fetchTwoPages : PageParams → Except ErrClass PageResp := fun p =>
  match p.cursor with
  | none => .ok { trades := some (some [1, 2]), cursor := some "c1" }
  | some _ => .ok { trades := some (some [3]), cursor := none }

/-- The empty filesystem: no file exists. -/
def fsEmpty : Fs := fun _ => none

/-! Theorems. -/

/-- Unfolding `fetch_page` when the attempt returns a parsed page. -/
theorem fetch_page_step_ok (oracle : Nat → AttemptOutcome) (attempt : Nat)
    (resp : PageResp) (h : oracle attempt = .ok resp) :
    fetch_page oracle attempt = { result := .ok resp, delays := [] } := by
  rw [fetch_page.eq_def, h]

/-- Unfolding `fetch_page` when the attempt raises a caught network error
below the retry ceiling: sleep `RETRY_DELAY_SECONDS * attempt` and retry. -/
theorem fetch_page_step_retry (oracle : Nat → AttemptOutcome) (attempt : Nat)
    (e : ErrClass) (h : oracle attempt = .raised e)
    (hc : isCaughtNetworkError e = true) (hlt : attempt < MAX_RETRIES) :
    fetch_page oracle attempt =
      { result := (fetch_page oracle (attempt + 1)).result,
        delays := RETRY_DELAY_SECONDS * attempt ::
          (fetch_page oracle (attempt + 1)).delays } := by
  rw [fetch_page.eq_def, h]
  simp [hc, Nat.not_le.mpr hlt]

/-- Unfolding `fetch_page` when a caught network error hits the retry
ceiling: the error is re-raised. -/
theorem fetch_page_step_exhaust (oracle : Nat → AttemptOutcome)
    (attempt : Nat) (e : ErrClass) (h : oracle attempt = .raised e)
    (hc : isCaughtNetworkError e = true) (hge : MAX_RETRIES ≤ attempt) :
    fetch_page oracle attempt = { result := .error e, delays := [] } := by
  rw [fetch_page.eq_def, h]
  simp [hc, hge]

/-- Unfolding `fetch_page` when the attempt raises an exception outside the
caught network classes: it propagates at once. -/
theorem fetch_page_step_uncaught (oracle : Nat → AttemptOutcome)
    (attempt : Nat) (e : ErrClass) (h : oracle attempt = .raised e)
    (hc : isCaughtNetworkError e = false) :
    fetch_page oracle attempt = { result := .error e, delays := [] } := by
  rw [fetch_page.eq_def, h]
  simp [hc]

/-- C4: the retry bound is exactly `MAX_RETRIES = 8` attempts.  If attempts
1..7 each raise a retryable (caught network) error, then: a success on
attempt 8 makes `fetch_page` return that page with no error, after sleeping
`RETRY_DELAY_SECONDS * n` following each failed attempt `n`; a retryable
failure on attempt 8 makes it propagate that last error as fatal. -/
theorem fetch_page_retry_bound (oracle : Nat → AttemptOutcome)
    (errAt : Fin 7 → ErrClass)
    (horacle : ∀ i : Fin 7, oracle (i.val + 1) = .raised (errAt i))
    (hcaught : ∀ i : Fin 7, isCaughtNetworkError (errAt i) = true) :
    (∀ resp, oracle 8 = .ok resp →
      fetch_page oracle 1 =
        { result := .ok resp,
          delays := [RETRY_DELAY_SECONDS * 1, RETRY_DELAY_SECONDS * 2,
            RETRY_DELAY_SECONDS * 3, RETRY_DELAY_SECONDS * 4,
            RETRY_DELAY_SECONDS * 5, RETRY_DELAY_SECONDS * 6,
            RETRY_DELAY_SECONDS * 7] })
    ∧ (∀ e, oracle 8 = .raised e → isCaughtNetworkError e = true →
      fetch_page oracle 1 =
        { result := .error e,
          delays := [RETRY_DELAY_SECONDS * 1, RETRY_DELAY_SECONDS * 2,
            RETRY_DELAY_SECONDS * 3, RETRY_DELAY_SECONDS * 4,
            RETRY_DELAY_SECONDS * 5, RETRY_DELAY_SECONDS * 6,
            RETRY_DELAY_SECONDS * 7] }) := by
  have h1 : oracle 1 = .raised (errAt ⟨0, by omega⟩) := horacle ⟨0, by omega⟩
  have h2 : oracle 2 = .raised (errAt ⟨1, by omega⟩) := horacle ⟨1, by omega⟩
  have h3 : oracle 3 = .raised (errAt ⟨2, by omega⟩) := horacle ⟨2, by omega⟩
  have h4 : oracle 4 = .raised (errAt ⟨3, by omega⟩) := horacle ⟨3, by omega⟩
  have h5 : oracle 5 = .raised (errAt ⟨4, by omega⟩) := horacle ⟨4, by omega⟩
  have h6 : oracle 6 = .raised (errAt ⟨5, by omega⟩) := horacle ⟨5, by omega⟩
  have h7 : oracle 7 = .raised (errAt ⟨6, by omega⟩) := horacle ⟨6, by omega⟩
  have s1 := fetch_page_step_retry oracle 1 _ h1 (hcaught _) (by decide)
  have s2 := fetch_page_step_retry oracle 2 _ h2 (hcaught _) (by decide)
  have s3 := fetch_page_step_retry oracle 3 _ h3 (hcaught _) (by decide)
  have s4 := fetch_page_step_retry oracle 4 _ h4 (hcaught _) (by decide)
  have s5 := fetch_page_step_retry oracle 5 _ h5 (hcaught _) (by decide)
  have s6 := fetch_page_step_retry oracle 6 _ h6 (hcaught _) (by decide)
  have s7 := fetch_page_step_retry oracle 7 _ h7 (hcaught _) (by decide)
  constructor
  · intro resp h8
    have s8 := fetch_page_step_ok oracle 8 resp h8
    simp [s1, s2, s3, s4, s5, s6, s7, s8]
  · intro e h8 hc8
    have s8 := fetch_page_step_exhaust oracle 8 e h8 hc8 (by decide)
    simp [s1, s2, s3, s4, s5, s6, s7, s8]

/-- Closed instance of the retry-bound theorem: seven timeouts then a
success yield the page after the seven linearly growing sleeps; eight
timeouts yield the propagated timeout error. -/
theorem fetch_page_retry_bound_witness :
    fetch_page oracleSevenFailures 1 =
      { result := .ok respEmpty, delays := [10, 20, 30, 40, 50, 60, 70] }
    ∧ fetch_page oracleAlwaysTimeout 1 =
      { result := .error .timeoutError,
        delays := [10, 20, 30, 40, 50, 60, 70] } := by
  constructor
  · have h := (fetch_page_retry_bound oracleSevenFailures
      (fun _ => .timeoutError) (by decide) (by decide)).1 respEmpty (by decide)
    simpa [RETRY_DELAY_SECONDS] using h
  · have h := (fetch_page_retry_bound oracleAlwaysTimeout
      (fun _ => .timeoutError) (by decide) (by decide)).2 .timeoutError
      (by decide) (by decide)
    simpa [RETRY_DELAY_SECONDS] using h

/-- C9: the retried classes are exactly the five network classes caught by
the `except` clause (HTTP error, URL/connection error, timeout, truncated
read, connection reset); any other exception of a page request — in
particular a JSON decode failure or an unexpected-shape error — propagates
immediately as fatal, with no retry and no sleep. -/
theorem fetch_page_fatal_classification (oracle : Nat → AttemptOutcome)
    (e : ErrClass) (h1 : oracle 1 = .raised e)
    (hfatal : isCaughtNetworkError e = false) :
    fetch_page oracle 1 = { result := .error e, delays := [] }
    ∧ (∀ e2, isCaughtNetworkError e2 = true ↔
        (e2 = .httpError ∨ e2 = .urlError ∨ e2 = .timeoutError ∨
          e2 = .incompleteRead ∨ e2 = .connectionReset))
    ∧ isCaughtNetworkError .jsonDecodeError = false
    ∧ isCaughtNetworkError .typeError = false
    ∧ isCaughtNetworkError .otherError = false := by
  refine ⟨fetch_page_step_uncaught oracle 1 e h1 hfatal, ?_, rfl, rfl, rfl⟩
  intro e2
  cases e2 <;> simp [isCaughtNetworkError]

/-- Closed instance of the fatal-classification theorem: a malformed-JSON
failure on the first attempt propagates at once, with no sleeps. -/
theorem fetch_page_fatal_classification_witness :
    fetch_page oracleJsonError 1 =
      { result := .error .jsonDecodeError, delays := [] } :=
  (fetch_page_fatal_classification oracleJsonError .jsonDecodeError
    rfl rfl).1

/-- When the pagination loop exits normally, the pages it visited form the
cursor chain starting from its initial cursor, and the final accumulator is
the initial one followed by every visited page's trades in order. -/
theorem fetchLoop_ok_chain (fetch : PageParams → Except ErrClass PageResp)
    (min_ts max_ts limit : Nat) :
    ∀ (fuel : Nat) (cursor : Option String) (acc out : List Trade),
      fetchLoop fetch min_ts max_ts limit cursor acc fuel =
        some (.ok out) →
      ∃ chain, pageChain fetch min_ts max_ts limit cursor fuel =
          some chain ∧
        out = acc ++ (chain.map pageTradesOf).flatten := by
  intro fuel
  induction fuel with
  | zero => intro cursor acc out h; simp [fetchLoop] at h
  | succ n ih =>
    intro cursor acc out h
    rw [fetchLoop] at h
    split at h
    · simp at h
    · rename_i data hf
      split at h
      · simp at h
      · rename_i page_trades ht
        simp only [] at h
        split at h
        · rename_i hc
          obtain ⟨chain, hchain, hout⟩ :=
            ih data.cursor (acc ++ page_trades) out h
          refine ⟨data :: chain, ?_, ?_⟩
          · simp [pageChain, hf, ht, hc, hchain]
          · simp [hout, pageTradesOf, ht]
        · rename_i hc
          simp only [Option.some.injEq, Except.ok.injEq] at h
          refine ⟨[data], ?_, ?_⟩
          · simp [pageChain, hf, ht, hc]
          · simp [← h, pageTradesOf, ht]

/-- C5: for a day whose fetch completes, the trades returned are exactly the
concatenation, in order, of the trades of every page of the full cursor
chain (first page cursorless, each next page requested with the previous
cursor, ending at the first page with an absent or empty cursor), and the
persisted Day Record's `trade_count` equals both the length of that
concatenation and the sum of the pages' trade counts. -/
theorem day_fetch_complete_trade_count
    (fetch : PageParams → Except ErrClass PageResp) (day : Date)
    (limit fuel : Nat) (trades : List Trade)
    (h : fetch_trades_for_day fetch day limit fuel = some (.ok trades)) :
    ∃ chain,
      pageChain fetch (to_unix_range day).1 (to_unix_range day).2 limit
          none fuel = some chain ∧
      trades = (chain.map pageTradesOf).flatten ∧
      (download_single_day fetch day limit fuel).1 =
        some (.ok { date := day, min_ts := (to_unix_range day).1,
                    max_ts := (to_unix_range day).2,
                    trade_count := trades.length, trades := trades }) ∧
      trades.length =
        (chain.map (fun p => (pageTradesOf p).length)).sum := by
  have h' : fetchLoop fetch (to_unix_range day).1 (to_unix_range day).2
      limit none [] fuel = some (.ok trades) := h
  obtain ⟨chain, hchain, hout⟩ :=
    fetchLoop_ok_chain fetch (to_unix_range day).1 (to_unix_range day).2
      limit fuel none [] trades h'
  refine ⟨chain, hchain, by simpa using hout, ?_, ?_⟩
  · simp [download_single_day, h]
  · rw [hout]
    simp only [List.nil_append, List.length_flatten, List.map_map]
    rfl

/-- Closed instance of the trade-count theorem: a two-page chain with
trades `[1, 2]` then `[3]` completes with the concatenation `[1, 2, 3]` and
a `trade_count` of 3. -/
theorem day_fetch_complete_trade_count_witness :
    ∃ chain,
      pageChain fetchTwoPages (to_unix_range day0).1 (to_unix_range day0).2
          500 none 2 = some chain ∧
      ([1, 2, 3] : List Trade) = (chain.map pageTradesOf).flatten ∧
      (download_single_day fetchTwoPages day0 500 2).1 =
        some (.ok { date := day0, min_ts := (to_unix_range day0).1,
                    max_ts := (to_unix_range day0).2,
                    trade_count := ([1, 2, 3] : List Trade).length,
                    trades := [1, 2, 3] }) ∧
      ([1, 2, 3] : List Trade).length =
        (chain.map (fun p => (pageTradesOf p).length)).sum :=
  day_fetch_complete_trade_count fetchTwoPages day0 500 2 [1, 2, 3] rfl

/-- C6: when a day's fetch is aborted mid-pagination by a propagated
exception (a fatal page error, or a retryable error after retry
exhaustion), `download_single_day` performs no filesystem operation at all:
every filesystem state, and in particular the day's own file, is left
exactly as it was. -/
theorem aborted_day_leaves_disk_unchanged
    (fetch : PageParams → Except ErrClass PageResp) (day : Date)
    (limit fuel : Nat) (e : ErrClass)
    (h : (download_single_day fetch day limit fuel).1 = some (.error e)) :
    (download_single_day fetch day limit fuel).2 = [] ∧
    (∀ fs0 : Fs, applyOps fs0 (download_single_day fetch day limit fuel).2 =
      fs0) ∧
    (∀ fs0 : Fs, fs0 (dateFileName day) = none →
      applyOps fs0 (download_single_day fetch day limit fuel).2
        (dateFileName day) = none) := by
  unfold download_single_day at h ⊢
  split at h
  · simp at h
  · exact ⟨rfl, fun fs0 => rfl, fun fs0 h0 => h0⟩
  · simp at h

/-- Closed instance of the abort theorem: a day whose first page request
fails fatally produces no filesystem operation. -/
theorem aborted_day_leaves_disk_unchanged_witness :
    (download_single_day fetchHttpError day0 500 1).2 = [] ∧
    (∀ fs0 : Fs,
      applyOps fs0 (download_single_day fetchHttpError day0 500 1).2 =
        fs0) ∧
    (∀ fs0 : Fs, fs0 (dateFileName day0) = none →
      applyOps fs0 (download_single_day fetchHttpError day0 500 1).2
        (dateFileName day0) = none) :=
  aborted_day_leaves_disk_unchanged fetchHttpError day0 500 1 .httpError rfl

/-- C8: the query window of a day is the inclusive Unix-second range from
midnight UTC of that day to midnight UTC of the next day minus one second
(86399 seconds later); for 2025-03-10 it is
`[1741564800, 1741651199]` (`2025-03-10T00:00:00Z` .. `2025-03-10T23:59:59Z`);
and a persisted Day Record's `min_ts`/`max_ts` are exactly this window. -/
theorem window_spans_one_utc_day (fetch : PageParams → Except ErrClass PageResp)
    (day : Date) (limit fuel : Nat) (p : DayPayload)
    (h : (download_single_day fetch day limit fuel).1 = some (.ok p)) :
    (to_unix_range day).1 = day * 86400 ∧
    (to_unix_range day).2 = (day + 1) * 86400 - 1 ∧
    (to_unix_range day).2 = (to_unix_range day).1 + 86399 ∧
    to_unix_range (mkDate 2025 3 10) = (1741564800, 1741651199) ∧
    p.min_ts = (to_unix_range day).1 ∧
    p.max_ts = (to_unix_range day).2 := by
  refine ⟨rfl, by simp [to_unix_range]; omega, rfl, by decide, ?_, ?_⟩ <;>
  · unfold download_single_day at h
    split at h
    · simp at h
    · simp at h
    · simp only [Option.some.injEq, Except.ok.injEq] at h
      rw [← h]

/-- Closed instance of the window theorem at a completed download of
2025-03-10. -/
theorem window_spans_one_utc_day_witness :
    (to_unix_range day0).1 = day0 * 86400 ∧
    (to_unix_range day0).2 = (day0 + 1) * 86400 - 1 ∧
    (to_unix_range day0).2 = (to_unix_range day0).1 + 86399 ∧
    to_unix_range (mkDate 2025 3 10) = (1741564800, 1741651199) ∧
    ({ date := day0, min_ts := (to_unix_range day0).1,
       max_ts := (to_unix_range day0).2, trade_count := 0,
       trades := [] } : DayPayload).min_ts = (to_unix_range day0).1 ∧
    ({ date := day0, min_ts := (to_unix_range day0).1,
       max_ts := (to_unix_range day0).2, trade_count := 0,
       trades := [] } : DayPayload).max_ts = (to_unix_range day0).2 :=
  window_spans_one_utc_day fetchEmptyPage day0 500 1 _ rfl

/-- In a `≤`-sorted list of naturals, `getLast?` returns a maximum
element. -/
theorem sorted_getLast?_isMax :
    ∀ s : List Nat, s.Sorted (· ≤ ·) →
      ∀ m, s.getLast? = some m → m ∈ s ∧ ∀ x ∈ s, x ≤ m := by
  intro s
  induction s with
  | nil => intro _ m hm; simp at hm
  | cons a t ih =>
    intro hs m hm
    rcases List.sorted_cons.mp hs with ⟨ha, ht⟩
    cases t with
    | nil =>
      simp only [List.getLast?_singleton, Option.some.injEq] at hm
      subst hm
      refine ⟨List.mem_singleton_self a, ?_⟩
      intro x hx
      rw [List.mem_singleton] at hx
      exact Nat.le_of_eq hx
    | cons b t2 =>
      rw [List.getLast?_cons_cons] at hm
      obtain ⟨hmem, hmax⟩ := ih ht m hm
      refine ⟨List.mem_cons_of_mem a hmem, ?_⟩
      intro x hx
      rcases List.mem_cons.mp hx with rfl | hx2
      · exact ha m hmem
      · exact hmax x hx2

/-- C7: with no explicit start date, the planned start is one day after the
latest on-disk date when any Day Record exists, else the fixed epoch start
constant (2025-08-15); and concretely, with Day Records for
2025-01-01..2025-01-05, today 2025-01-10 and today excluded, the Pending
Day Set is exactly 2025-01-06..2025-01-09 in ascending order. -/
theorem default_start_and_pending (args : Args) (existing : List Date)
    (today : Date) (hstart : args.start_date = none) :
    (existing = [] →
      (detect_range args existing today).1 = DEFAULT_START_DATE)
    ∧ (existing ≠ [] → ∃ latest, latest ∈ existing ∧
        (∀ x ∈ existing, x ≤ latest) ∧
        (detect_range args existing today).1 = latest + 1)
    ∧ planPending argsDefault existingJan (mkDate 2025 1 10) =
        [mkDate 2025 1 6, mkDate 2025 1 7, mkDate 2025 1 8,
          mkDate 2025 1 9] := by
  refine ⟨?_, ?_, by decide⟩
  · intro he; subst he; simp [detect_range, hstart]
  · intro hne
    have hperm := List.perm_insertionSort (· ≤ ·) existing
    have hsorted := List.sorted_insertionSort (· ≤ ·) existing
    have hsne : existing.insertionSort (· ≤ ·) ≠ [] := by
      intro h0
      apply hne
      have hlen := hperm.length_eq
      rw [h0] at hlen
      exact List.eq_nil_of_length_eq_zero hlen.symm
    obtain ⟨m, hm⟩ := Option.isSome_iff_exists.mp
      (List.getLast?_isSome.mpr hsne)
    obtain ⟨hmem, hmax⟩ :=
      sorted_getLast?_isMax (existing.insertionSort (· ≤ ·)) hsorted m hm
    refine ⟨m, hperm.mem_iff.mp hmem,
      fun x hx => hmax x (hperm.mem_iff.mpr hx), ?_⟩
    simp [detect_range, hstart, hm]

/-- Closed instance of the default-start theorem at the 2025-01 example:
the latest of 2025-01-01..05 is an on-disk maximum and the detected start
is that date plus one. -/
theorem default_start_and_pending_witness :
    existingJan ≠ [] ∧ ∃ latest, latest ∈ existingJan ∧
      (∀ x ∈ existingJan, x ≤ latest) ∧
      (detect_range argsDefault existingJan (mkDate 2025 1 10)).1 =
        latest + 1 :=
  ⟨by decide,
    (default_start_and_pending argsDefault existingJan (mkDate 2025 1 10)
      rfl).2.1 (by decide)⟩

/-- C2 (refutation by evaluation): with `include-today` set and no explicit
end date, `detect_range` still defaults the end date to yesterday, the
adjustment step leaves it there, and the current day (2025-01-10) is not
part of the planned range — the flag only prevents clamping an explicit end
date down to yesterday; it never raises the default. -/
theorem include_today_still_defaults_end_to_yesterday :
    argsIncludeToday.include_today = true ∧
    argsIncludeToday.end_date = none ∧
    (detect_range argsIncludeToday [] (mkDate 2025 1 10)).2.1 =
      mkDate 2025 1 9 ∧
    adjustEnd argsIncludeToday
      (detect_range argsIncludeToday [] (mkDate 2025 1 10)).2.1
      (mkDate 2025 1 10) = mkDate 2025 1 9 ∧
    planPending argsIncludeToday [] (mkDate 2025 1 10) =
      [mkDate 2025 1 5, mkDate 2025 1 6, mkDate 2025 1 7, mkDate 2025 1 8,
        mkDate 2025 1 9] ∧
    mkDate 2025 1 10 ∉ planPending argsIncludeToday [] (mkDate 2025 1 10) := by
  decide

/-- C3 counterexample: a run with `include-today` false, an explicit start
of 2025-01-08, and a directory holding 2025-01-01..05 plus today's
(2025-01-10) file, reaches planning; its trace is the planning event
followed by the deletion event, so the deletion does not precede
planning. -/
theorem today_file_removed_after_planning_cex :
    argsStartJan8.include_today = false ∧
    dirWithToday.contains (mkDate 2025 1 10) = true ∧
    (mainPlanPhase argsStartJan8 dirWithToday (mkDate 2025 1 10)).1 =
      [Event.planned [mkDate 2025 1 8, mkDate 2025 1 9],
        Event.removedToday (mkDate 2025 1 10)] ∧
    ¬ deleteBeforePlan
      (mainPlanPhase argsStartJan8 dirWithToday (mkDate 2025 1 10)).1 := by
  decide

/-- C3 (amended): with `include-today` false and a file present for today,
the run deletes that file after the Pending Day Set has been computed when
`start ≤ end` holds after adjustment; when `start > end` the run returns
early having deleted nothing, leaving today's file in place. -/
theorem today_file_removed_after_planning (args : Args) (dir : List Date)
    (today : Date) (hit : args.include_today = false)
    (hmem : dir.contains today = true) :
    ((detect_range args dir today).1 ≤
        adjustEnd args (detect_range args dir today).2.1 today →
      mainPlanPhase args dir today =
        ([Event.planned (pendingOf args dir (detect_range args dir today).1
            (adjustEnd args (detect_range args dir today).2.1 today)),
          Event.removedToday today], dir.erase today))
    ∧ (adjustEnd args (detect_range args dir today).2.1 today <
        (detect_range args dir today).1 →
      mainPlanPhase args dir today = ([], dir)) := by
  have hmem' : today ∈ dir := by simpa using hmem
  constructor
  · intro h
    simp [mainPlanPhase, hit, hmem', Nat.not_lt.mpr h]
  · intro h
    simp [mainPlanPhase, hit, hmem', h]

/-- Closed instance of the amended C3 theorem: the explicit-start run
produces exactly the planning event then the deletion event, removing
today's file from the directory. -/
theorem today_file_removed_after_planning_witness :
    mainPlanPhase argsStartJan8 dirWithToday (mkDate 2025 1 10) =
      ([Event.planned (pendingOf argsStartJan8 dirWithToday
          (detect_range argsStartJan8 dirWithToday (mkDate 2025 1 10)).1
          (adjustEnd argsStartJan8
            (detect_range argsStartJan8 dirWithToday (mkDate 2025 1 10)).2.1
            (mkDate 2025 1 10))),
        Event.removedToday (mkDate 2025 1 10)],
        dirWithToday.erase (mkDate 2025 1 10)) :=
  (today_file_removed_after_planning argsStartJan8 dirWithToday
    (mkDate 2025 1 10) rfl rfl).1 (by decide)

/-- C10 counterexample: a page whose `trades` key is present with value
JSON `null` is not treated as an empty page — `data.get("trades", [])`
returns `None` (the default applies only to an absent key), and the
subsequent `trades.extend(None)` raises `TypeError`.  The day aborts with a
fatal error, no file is written, and no `trade_count = 0` Day Record is
produced. -/
theorem null_trades_not_silent_cex :
    fetch_trades_for_day fetchNullTrades day0 500 1 =
      some (.error .typeError) ∧
    download_single_day fetchNullTrades day0 500 1 =
      (some (.error .typeError), []) ∧
    (download_single_day fetchNullTrades day0 500 1).1 ≠
      some (.ok { date := day0, min_ts := (to_unix_range day0).1,
                  max_ts := (to_unix_range day0).2, trade_count := 0,
                  trades := [] }) := by
  refine ⟨rfl, rfl, ?_⟩
  intro h
  have h2 : (some (Except.error ErrClass.typeError) :
      Option (Except ErrClass DayPayload)) =
      some (.ok { date := day0, min_ts := (to_unix_range day0).1,
                  max_ts := (to_unix_range day0).2, trade_count := 0,
                  trades := [] }) := h
  simp at h2

/-- When every page request returns a parsed object whose `trades` key is
absent, a normal exit of the pagination loop leaves the accumulator
unchanged: every page contributed the `[]` default. -/
theorem fetchLoop_absent_trades (fetch : PageParams → Except ErrClass PageResp)
    (min_ts max_ts limit : Nat)
    (habs : ∀ p, ∃ r, fetch p = .ok r ∧ r.trades = none) :
    ∀ (fuel : Nat) (cursor : Option String) (acc out : List Trade),
      fetchLoop fetch min_ts max_ts limit cursor acc fuel =
        some (.ok out) → out = acc := by
  intro fuel
  induction fuel with
  | zero => intro cursor acc out h; simp [fetchLoop] at h
  | succ n ih =>
    intro cursor acc out h
    obtain ⟨r, hr, htr⟩ := habs { min_ts := min_ts, max_ts := max_ts, limit := limit, cursor := if cursorTruthy cursor then cursor else none }
    rw [fetchLoop] at h
    split at h
    · rename_i e hf
      rw [hf] at hr
      simp at hr
    · rename_i data hf
      rw [hf] at hr
      simp only [Except.ok.injEq] at hr
      subst hr
      split at h
      · rename_i ht
        rw [htr] at ht
        simp [getTradesDefault] at ht
      · rename_i page_trades ht
        rw [htr] at ht
        simp only [getTradesDefault, Option.some.injEq] at ht
        simp only [] at h
        split at h
        · rename_i hc
          have hout := ih data.cursor (acc ++ page_trades) out h
          rw [hout, ← ht, List.append_nil]
        · rename_i hc
          simp only [Option.some.injEq, Except.ok.injEq] at h
          rw [← h, ← ht, List.append_nil]

/-- C10 (amended): a page whose `trades` key is absent is silently treated
as an empty page (the loop appends nothing and continues or terminates on
the cursor as usual), so a day whose every page lacks `trades` completes
with a `trade_count = 0` Day Record; but a `trades` key present with value
JSON `null` raises `TypeError` (`extend(None)`), aborting the day as a
fatal error instead. -/
theorem absent_trades_empty_null_trades_fatal
    (fetch : PageParams → Except ErrClass PageResp) (day : Date)
    (limit fuel : Nat) :
    ((∀ p, ∃ r, fetch p = .ok r ∧ r.trades = none) →
      ∀ out, fetch_trades_for_day fetch day limit fuel = some (.ok out) →
        out = [] ∧
        (download_single_day fetch day limit fuel).1 =
          some (.ok { date := day, min_ts := (to_unix_range day).1,
                      max_ts := (to_unix_range day).2, trade_count := 0,
                      trades := [] }))
    ∧ (∀ r, fetch { min_ts := (to_unix_range day).1, max_ts := (to_unix_range day).2, limit := limit, cursor := none } = .ok r →
        r.trades = some none → 1 ≤ fuel →
        fetch_trades_for_day fetch day limit fuel =
          some (.error .typeError)) := by
  constructor
  · intro habs out h
    have h0 : out = [] :=
      fetchLoop_absent_trades fetch (to_unix_range day).1
        (to_unix_range day).2 limit habs fuel none [] out h
    subst h0
    refine ⟨rfl, ?_⟩
    simp [download_single_day, h]
  · intro r hr htr hfuel
    obtain ⟨k, rfl⟩ : ∃ k, fuel = k + 1 := ⟨fuel - 1, by omega⟩
    show fetchLoop fetch (to_unix_range day).1 (to_unix_range day).2 limit
      none [] (k + 1) = some (.error .typeError)
    rw [fetchLoop]
    simp only [cursorTruthy, Bool.false_eq_true, if_false]
    rw [hr]
    simp [htr, getTradesDefault]

/-- Closed instance of the amended C10 theorem: an absent-`trades` single
page yields a completed day with a `trade_count = 0` record, while a
null-`trades` page aborts the day with `TypeError`. -/
theorem absent_trades_empty_null_trades_fatal_witness :
    (([] : List Trade) = [] ∧
      (download_single_day fetchAbsentTrades day0 500 1).1 =
        some (.ok { date := day0, min_ts := (to_unix_range day0).1,
                    max_ts := (to_unix_range day0).2, trade_count := 0,
                    trades := [] })) ∧
    fetch_trades_for_day fetchNullTrades day0 500 1 =
      some (.error .typeError) :=
  ⟨(absent_trades_empty_null_trades_fatal fetchAbsentTrades day0 500 1).1
      (fun _ => ⟨_, rfl, rfl⟩) [] rfl,
    (absent_trades_empty_null_trades_fatal fetchNullTrades day0 500 1).2
      _ rfl rfl (by omega)⟩

/-- C1 (refutation by evaluation): for a completed day, the Persistence
Layer opens the final output path directly — creating or truncating it —
and then writes the JSON into it.  No operation is a rename, and after the
opening step a reader of the output path sees an existing but empty file,
which is neither the initial state (no file) nor the final state (the full
Day Record), so the write is not all-or-nothing. -/
theorem persist_write_not_atomic :
    (download_single_day fetchEmptyPage day0 500 1).1 =
      some (.ok { date := day0, min_ts := 1741564800, max_ts := 1741651199,
                  trade_count := 0, trades := [] }) ∧
    (download_single_day fetchEmptyPage day0 500 1).2 =
      persistOps (dateFileName day0)
        (renderPayload { date := day0, min_ts := 1741564800,
                         max_ts := 1741651199, trade_count := 0,
                         trades := [] }) ∧
    (∀ op ∈ (download_single_day fetchEmptyPage day0 500 1).2,
      op.isRename = false) ∧
    fsEmpty (dateFileName day0) = none ∧
    applyOps fsEmpty
      ((download_single_day fetchEmptyPage day0 500 1).2.take 1)
      (dateFileName day0) = some "" ∧
    applyOps fsEmpty (download_single_day fetchEmptyPage day0 500 1).2
      (dateFileName day0) ≠ some "" ∧
    applyOps fsEmpty (download_single_day fetchEmptyPage day0 500 1).2
      (dateFileName day0) ≠ none ∧
    ¬ atomicFor fsEmpty (dateFileName day0)
      (download_single_day fetchEmptyPage day0 500 1).2 :=
  ⟨rfl, rfl, by decide, rfl, by decide, by decide, by decide, by decide⟩

end KalshiTrades
